import Mathlib

/-!
Verification of the session-protocol client in `iottalkpy/dan.py`.

The development shallowly embeds the data model and operations of the source
file: Python dicts become association lists (insertion order and in-place
update semantics preserved), exceptions become `Except` results, and the
side effects of the MQTT/HTTP collaborators become explicit `Action` traces.
External collaborators (the `requests` HTTP library, the paho MQTT client,
the `uuid` module) are modelled at their interface boundary: HTTP responses
are inputs, transport calls are recorded actions, and UUID validity is an
abstract predicate parameter.
-/

namespace IotTalk

/-- Python values appearing in JSON data payloads (the image of
`json.loads` on a data-channel message, or the argument of `Client.push`). -/
inductive PyVal where
  | num (n : Int)
  | str (s : String)
  | boolean (b : Bool)
  | null
  | list (vs : List PyVal)

/-! ## Python dict model

`dan.py` stores channel tables in plain `dict`s.  A dict is modelled as an
association list with unique keys: lookup finds the first entry, update
replaces an existing entry in place, insertion appends, deletion removes
the entry. -/

/-- Dict lookup (`d.get(k)` / `d[k]` before the KeyError check). -/
def dget : List (String × String) → String → Option String
  | [], _ => none
  | (k, v) :: rest, key => if k = key then some v else dget rest key

/-- Dict update `d[k] = v`: replace the first entry with key `k` in place,
or append a fresh entry. -/
def dset : List (String × String) → String → String → List (String × String)
  | [], key, val => [(key, val)]
  | (k, v) :: rest, key, val =>
    if k = key then (k, val) :: rest else (k, v) :: dset rest key val

/-- Dict deletion `del d[k]`: remove the first entry with key `k`
(the caller checks presence, mirroring Python's KeyError). -/
def ddel : List (String × String) → String → List (String × String)
  | [], _ => []
  | (k, v) :: rest, key => if k = key then rest else (k, v) :: ddel rest key

/-- The key list of a dict. -/
def keys (l : List (String × String)) : List String := l.map Prod.fst

/-! ## ChannelPool (dan.py lines 102-115) -/

/-- `ChannelPool(dict)`: the forward dict (device feature -> topic) together
with the reverse index `rtable` (topic -> device feature). -/
structure ChannelPool where
  table : List (String × String)
  rtable : List (String × String)

/-- `ChannelPool.__init__`: both directions empty. -/
def ChannelPool.empty : ChannelPool := ⟨[], []⟩

/-- `ChannelPool.__setitem__` (lines 106-108): store the forward entry and
the reverse entry.  Note that the old reverse entry of a re-set feature is
NOT removed — the source only ever adds `rtable[topic] = df`. -/
def ChannelPool.setItem (p : ChannelPool) (df topic : String) : ChannelPool :=
  ⟨dset p.table df topic, dset p.rtable topic df⟩

/-- `ChannelPool.__delitem__` (lines 110-112): `del self.rtable[self[df]]`
then `dict.__delitem__(self, df)`.  Returns `none` on the KeyError raised
when either lookup fails. -/
def ChannelPool.delItem (p : ChannelPool) (df : String) : Option ChannelPool :=
  match dget p.table df with
  | none => none
  | some topic =>
    if (dget p.rtable topic).isSome then
      some ⟨ddel p.table df, ddel p.rtable topic⟩
    else none

/-- Forward lookup `pool.get(df)` / `pool[df]`. -/
def ChannelPool.get (p : ChannelPool) (df : String) : Option String :=
  dget p.table df

/-- `ChannelPool.df` (lines 114-115): reverse lookup `rtable.get(topic)`. -/
def ChannelPool.df (p : ChannelPool) (topic : String) : Option String :=
  dget p.rtable topic

/-! ## Session context and errors -/

/-- `Context.__init__` (lines 118-131).  The `on_signal`/`on_data` callbacks
are external caller-supplied functions; they are passed explicitly to the
operations that invoke them, and `register_callback` is tracked as a
presence flag. -/
structure Context where
  url : Option String := none
  app_id : Option String := none
  name : Option String := none
  mqtt_host : Option String := none
  mqtt_port : Option Int := none
  mqtt_client : Option Nat := none
  i_chans : ChannelPool := ChannelPool.empty
  o_chans : ChannelPool := ChannelPool.empty
  rev : Option Int := none
  register_callback : Bool := false

/-- A fresh context, as built by `Client.__init__`. -/
def Context.init : Context := {}

/-- The reason tags of the `RegistrationError` family.  The source attaches
message strings ('Already registered', 'Invalid url: "..."',
'Invalid UUID: ...', the server-provided reason, 'ConnectionError',
'Not registered'); the tag identifies which raise site fired. -/
inductive RegReason where
  | alreadyRegistered
  | invalidUrl
  | invalidId
  | serverRejected (reason : String)
  | connectionError
  | notRegistered
deriving DecidableEq

/-- Python exceptions that can escape the embedded operations. -/
inductive PyError where
  | registrationError (r : RegReason)
  | attributeError (attr : String)
  | keyError (k : String)
  | unboundLocal (name : String)
deriving DecidableEq

/-! ## Observable effects -/

/-- The JSON body of the registration PUT (lines 324-337).  `accept_protos`
is always present (possibly null); the other keys are included only when
the Python value is truthy. -/
structure RegisterBody where
  name : Option String := none
  idf_list : Option (List (String × List String)) := none
  odf_list : Option (List (String × List String)) := none
  accept_protos : Option (List String) := none
  profile : Option String := none

/-- Payloads published on MQTT topics by the client. -/
inductive MqttPayload where
  | presence (state : String) (rev : Option Int)
  | ctrlReply (msg_id : Nat) (state : String) (reason : Option String)
  | data (vs : List PyVal)

/-- Calls made to the external HTTP and MQTT collaborators, in program
order.  `waitDisconnect` records the `_disconn_lock.acquire()` barrier:
deregister does not return before the transport disconnect was observed. -/
inductive Action where
  | httpPut (url : String) (app_id : String) (body : RegisterBody)
  | httpDelete (url : Option String) (app_id : Option String) (rev : Option Int)
  | publish (topic : String) (payload : MqttPayload) (qos : Nat) (retain : Bool)
  | subscribe (topic : String) (qos : Nat)
  | unsubscribe (topic : String)
  | waitDisconnect
  | invokeRegisterCallback
  | onData (df : String)

/-- Recognizer for unsubscribe actions. -/
def Action.isUnsub : Action → Bool
  | .unsubscribe _ => true
  | _ => false

/-! ## Registration protocol (dan.py lines 278-387) -/

/-- `_invalid_url` (lines 152-160): only `None` and the empty string are
rejected. -/
def _invalid_url : Option String → Bool
  | none => true
  | some u => u = ""

/-- Python truthiness for an optional string argument: `None` and `''` are
falsy (`if name:` at line 325, `if id_` at line 320). -/
def truthyStr : Option String → Option String
  | none => none
  | some s => if s = "" then none else some s

/-- Python truthiness for an optional list argument: `None` and `[]` are
falsy (`if idf_list:` at line 328). -/
def truthyList : Option (List α) → Option (List α)
  | none => none
  | some [] => none
  | some l => some l

/-- The caller-supplied arguments of `Client.register` other than the two
callback functions (which are opaque to the session state).
`register_callback` records whether a callback was supplied; `profile` is
an opaque JSON object, `none` standing for an absent or falsy value. -/
structure RegisterArgs where
  url : Option String := none
  id_ : Option String := none
  name : Option String := none
  idf_list : Option (List (String × List String)) := none
  odf_list : Option (List (String × List String)) := none
  accept_protos : Option (List String) := none
  profile : Option String := none
  register_callback : Bool := false

/-- The body dict built at lines 324-337: truthy fields plus the always
present `accept_protos`. -/
def buildBody (a : RegisterArgs) : RegisterBody :=
  { name := truthyStr a.name
    idf_list := truthyList a.idf_list
    odf_list := truthyList a.odf_list
    accept_protos := a.accept_protos
    profile := a.profile }

/-- The parsed JSON of a successful registration response (line 355):
`{name, url: {host, port}, ctrl_chans: [in, out], rev}`. -/
structure RegMeta where
  name : String
  host : String
  port : Int
  ctrl_in : String
  ctrl_out : String
  rev : Int

/-- Outcome of the registration PUT performed by the external HTTP
library: either a response with a status code (plus the parsed JSON body:
a `reason` read on non-200, a `RegMeta` read on 200), or a
`requests.exceptions.ConnectionError`. -/
inductive RegHttpResult where
  | response (status : Nat) (reason : String) (meta : RegMeta)
  | connError

/-- The result of a call to `Client.register`: the actions issued to the
collaborators, the mutated context, and the returned value or the raised
exception. -/
structure RegisterOutcome where
  actions : List Action
  ctx : Context
  result : Except PyError Context

/-- Lines 339-387 of `Client.register`, after the precondition checks: set
`register_callback`, issue the PUT, and dispatch on the HTTP outcome.  On
a 200 response the next statement executed is line 356, `ctx = self.contex`
— the attribute `contex` does not exist on `Client`, so an
`AttributeError` is raised before any response field is copied into the
context (lines 357-386, including `mqtt_client` creation, are dead code). -/
def registerHttp (ctx : Context) (a : RegisterArgs) (http : RegHttpResult) :
    RegisterOutcome :=
  let ctx2 := { ctx with register_callback := a.register_callback }
  let put := Action.httpPut (ctx2.url.getD "") (ctx2.app_id.getD "") (buildBody a)
  match http with
  | .connError =>
    ⟨[put], ctx2, Except.error (.registrationError .connectionError)⟩
  | .response status reason _meta =>
    if status = 200 then
      ⟨[put], ctx2, Except.error (.attributeError "contex")⟩
    else
      ⟨[put], ctx2, Except.error (.registrationError (.serverRejected reason))⟩

/-- `Client.register` (lines 278-387).  `uuidOk` abstracts the `uuid.UUID`
constructor (`true` = parses, `false` = raises `ValueError`); `freshId`
abstracts the `uuid4()` generator.  Note Python truthiness at line 320:
an empty-string `id_` falls back to a generated UUID rather than being
validated. -/
def Client.register (ctx : Context) (uuidOk : String → Bool) (freshId : String)
    (a : RegisterArgs) (http : RegHttpResult) : RegisterOutcome :=
  if ctx.mqtt_client.isSome then
    ⟨[], ctx, Except.error (.registrationError .alreadyRegistered)⟩
  else
    let ctx1 := { ctx with url := a.url }
    if _invalid_url ctx1.url then
      ⟨[], ctx1, Except.error (.registrationError .invalidUrl)⟩
    else
      match truthyStr a.id_ with
      | some s =>
        if uuidOk s then
          registerHttp { ctx1 with app_id := some s } a http
        else
          ⟨[], ctx1, Except.error (.registrationError .invalidId)⟩
      | none => registerHttp { ctx1 with app_id := some freshId } a http

/-! ## Deregistration (dan.py lines 389-430) -/

/-- Outcome of the deregistration DELETE performed by the external HTTP
library. -/
inductive DelHttpResult where
  | response (status : Nat) (reason : String)
  | connError

/-- The result of a call to `Client.deregister`. -/
structure DeregisterOutcome where
  actions : List Action
  ctx : Context
  result : Except PyError Unit

/-- `Client.deregister` (lines 389-430): require a live transport handle,
publish the retained offline presence message on the inbound control topic
(qos 2), issue the DELETE with the current revision, then block on
`_disconn_lock` until `_on_disconnect` has observed the transport
disconnect, and finally clear `mqtt_client`.  HTTP failures are raised
before the disconnect barrier, leaving the handle in place. -/
def Client.deregister (ctx : Context) (http : DelHttpResult) :
    DeregisterOutcome :=
  if ctx.mqtt_client.isNone then
    ⟨[], ctx, Except.error (.registrationError .notRegistered)⟩
  else
    match ChannelPool.get ctx.i_chans "ctrl" with
    | none => ⟨[], ctx, Except.error (.keyError "ctrl")⟩
    | some tc =>
      let pub := Action.publish tc (.presence "offline" ctx.rev) 2 true
      let del := Action.httpDelete ctx.url ctx.app_id ctx.rev
      match http with
      | .connError =>
        ⟨[pub, del], ctx, Except.error (.registrationError .connectionError)⟩
      | .response status reason =>
        if status = 200 then
          ⟨[pub, del, Action.waitDisconnect],
            { ctx with mqtt_client := none }, Except.ok ()⟩
        else
          ⟨[pub, del], ctx,
            Except.error (.registrationError (.serverRejected reason))⟩

/-! ## Data path: push (dan.py lines 432-459) -/

/-- The result of a call to `Client.push`.  `waited` records whether
`wait_for_publish` blocked on the delivery confirmation. -/
structure PushOutcome where
  actions : List Action
  result : Except PyError Bool
  waited : Bool

/-- `data if isinstance(data, list) else [data]` (line 447). -/
def wrapData : PyVal → List PyVal
  | .list vs => vs
  | v => [v]

/-- `Client.push` (lines 432-459): require a live transport handle; an
unmapped feature returns `False` with no transport call; otherwise wrap,
serialize and publish on the mapped topic (default qos 0, not retained),
optionally blocking on the publish confirmation. -/
def Client.push (ctx : Context) (idf : String) (data : PyVal) (block : Bool) :
    PushOutcome :=
  if ctx.mqtt_client.isNone then
    ⟨[], Except.error (.registrationError .notRegistered), false⟩
  else
    match ChannelPool.get ctx.i_chans idf with
    | none => ⟨[], Except.ok false, false⟩
    | some topic =>
      ⟨[Action.publish topic (.data (wrapData data)) 0 false],
        Except.ok true, block⟩

/-! ## Connection lifecycle: _on_connect (dan.py lines 174-202) -/

/-- The result of a `_on_connect` callback invocation: the transport calls
made, and the value of `_is_reconnect` afterwards (always `True`). -/
structure ConnectOutcome where
  actions : List Action
  is_reconnect : Bool

/-- `Client._on_connect` (lines 174-202).  First connect: subscribe the
outbound control topic (qos 2) and publish the retained online presence
message on the inbound control topic.  Reconnect: renew the subscription
of every entry of `o_chans` instead, and publish nothing.  In both cases
the supplied `register_callback` is invoked, and `_is_reconnect` is set. -/
def Client.on_connect (ctx : Context) (is_reconnect : Bool) :
    Except PyError ConnectOutcome :=
  if is_reconnect = false then
    match ChannelPool.get ctx.o_chans "ctrl", ChannelPool.get ctx.i_chans "ctrl" with
    | some oc, some ic =>
      Except.ok ⟨[Action.subscribe oc 2,
          Action.publish ic (.presence "online" ctx.rev) 2 true]
        ++ (if ctx.register_callback then [Action.invokeRegisterCallback] else []),
        true⟩
    | _, _ => Except.error (.keyError "ctrl")
  else
    Except.ok ⟨(ctx.o_chans.table.map fun p => Action.subscribe p.2 2)
      ++ (if ctx.register_callback then [Action.invokeRegisterCallback] else []),
      true⟩

/-! ## Control-channel signal handler (dan.py lines 208-262) -/

/-- The two documented return shapes of the application signal callback:
`True`, or the pair `(False, reason)` (line 252 comment). -/
inductive CbResult where
  | isTrue
  | falseReason (reason : String)

/-- A parsed control-channel command
`{command, msg_id, idf | odf, topic?}`. -/
structure Signal where
  command : String
  msg_id : Nat
  idf : Option String
  odf : Option String
  topic : Option String

/-- The acknowledgment dict built at lines 249-256. -/
def replyOf (msg_id : Nat) : CbResult → MqttPayload
  | .isTrue => .ctrlReply msg_id "ok" none
  | .falseReason r => .ctrlReply msg_id "error" (some r)

/-- The CONNECT/DISCONNECT dispatch (lines 216-247): mutate the channel
pools, call the application signal callback, and collect the transport
calls.  The third component is the `handling_result` local: `none` means
no branch assigned it (command neither CONNECT nor DISCONNECT, or neither
`idf` nor `odf` present). -/
def signalMutation (ctx : Context) (onSignal : String → List String → CbResult)
    (sig : Signal) : Except PyError (Context × List Action × Option CbResult) :=
  if sig.command = "CONNECT" then
    match sig.idf with
    | some idf =>
      match sig.topic with
      | none => Except.error (.keyError "topic")
      | some t =>
        Except.ok ({ ctx with i_chans := ctx.i_chans.setItem idf t }, [],
          some (onSignal sig.command [idf]))
    | none =>
      match sig.odf with
      | some odf =>
        match sig.topic with
        | none => Except.error (.keyError "topic")
        | some t =>
          let ctx' := { ctx with o_chans := ctx.o_chans.setItem odf t }
          match ChannelPool.get ctx'.o_chans odf with
          | none => Except.error (.keyError odf)
          | some tt =>
            Except.ok (ctx', [Action.subscribe tt 0],
              some (onSignal sig.command [odf]))
      | none => Except.ok (ctx, [], none)
  else if sig.command = "DISCONNECT" then
    match sig.idf with
    | some idf =>
      match ctx.i_chans.delItem idf with
      | none => Except.error (.keyError idf)
      | some p =>
        Except.ok ({ ctx with i_chans := p }, [],
          some (onSignal sig.command [idf]))
    | none =>
      match sig.odf with
      | some odf =>
        match ChannelPool.get ctx.o_chans odf with
        | none => Except.error (.keyError odf)
        | some t =>
          match ctx.o_chans.delItem odf with
          | none => Except.error (.keyError t)
          | some p =>
            Except.ok ({ ctx with o_chans := p }, [Action.unsubscribe t],
              some (onSignal sig.command [odf]))
      | none => Except.ok (ctx, [], none)
  else Except.ok (ctx, [], none)

/-- The control-topic branch of `Client._on_message` (lines 215-262),
together with the stale-client guard of lines 209-211: run the dispatch,
then build the acknowledgment from `handling_result` — referencing it
raises `UnboundLocalError` when no dispatch branch assigned it — and
publish the acknowledgment on the inbound control topic (qos 2).
`Client.on_message` below adds the line-214 topic dispatch in front of
this; it re-checks the (unchanged) stale guard, which is idempotent. -/
def Client.handle_signal (ctx : Context)
    (onSignal : String → List String → CbResult) (msgClient : Nat)
    (sig : Signal) : Except PyError (Context × List Action) :=
  if ctx.mqtt_client = some msgClient then
    match signalMutation ctx onSignal sig with
    | .error e => Except.error e
    | .ok (ctx', acts, hres) =>
      match hres with
      | none => Except.error (.unboundLocal "handling_result")
      | some r =>
        match ChannelPool.get ctx'.i_chans "ctrl" with
        | none => Except.error (.keyError "ctrl")
        | some ic =>
          Except.ok (ctx', acts ++ [Action.publish ic (replyOf sig.msg_id r) 2 false])
  else Except.ok (ctx, [])

/-- `Client._on_message` in full (lines 208-268): the stale-client guard
(lines 209-211), then the line-214 dispatch — `msg.topic` is compared
against the dict lookup `self.context.o_chans['ctrl']`, which raises
`KeyError` when the control entry has been deleted.  A match runs the
control branch (`Client.handle_signal`); otherwise the data path of
lines 264-268 resolves the topic through the reverse index, silently
drops unresolved topics, and hands the parsed payload to the `on_data`
callback (the payload is opaque to the session state and elided from the
recorded action). -/
def Client.on_message (ctx : Context)
    (onSignal : String → List String → CbResult) (msgClient : Nat)
    (topic : String) (sig : Signal) : Except PyError (Context × List Action) :=
  if ctx.mqtt_client = some msgClient then
    match ChannelPool.get ctx.o_chans "ctrl" with
    | none => Except.error (.keyError "ctrl")
    | some ct =>
      if topic = ct then
        Client.handle_signal ctx onSignal msgClient sig
      else
        match ChannelPool.df ctx.o_chans topic with
        | none => Except.ok (ctx, [])
        | some df => Except.ok (ctx, [Action.onData df])
  else Except.ok (ctx, [])

/-- Delivery of a sequence of transport messages — each a topic together
with its parsed payload — through `Client.on_message`, threading the
context and concatenating the transport calls; stops at the first
uncaught exception in the delivery thread. -/
def runMsgs (ctx : Context) (onSignal : String → List String → CbResult)
    (msgClient : Nat) :
    List (String × Signal) → Except PyError (Context × List Action)
  | [] => Except.ok (ctx, [])
  | (tp, s) :: rest =>
    match Client.on_message ctx onSignal msgClient tp s with
    | .error e => Except.error e
    | .ok (ctx', acts) =>
      match runMsgs ctx' onSignal msgClient rest with
      | .error e => Except.error e
      | .ok (ctx'', acts') => Except.ok (ctx'', acts ++ acts')

/-! ## ChannelPool operation sequences (for the pool invariant) -/

/-- An abstract `set`/`remove` operation on a `ChannelPool`. -/
inductive PoolOp where
  | set (df topic : String)
  | remove (df : String)

/-- Mutual consistency of the two directions: a topic is in the reverse
index with feature `f` exactly when `f` currently maps to it. -/
def poolConsistent (p : ChannelPool) : Prop :=
  ∀ t f, dget p.rtable t = some f ↔ dget p.table f = some t

/-- Well-formedness: mutual consistency plus uniqueness of the dict keys
on both sides (true of genuine Python dicts). -/
def poolWf (p : ChannelPool) : Prop :=
  poolConsistent p ∧ (keys p.table).Nodup ∧ (keys p.rtable).Nodup

/-- A run of pool operations in which every `set` installs a fresh feature
with a fresh topic, and every `remove` succeeds. -/
inductive RunFresh : ChannelPool → List PoolOp → ChannelPool → Prop where
  | nil (p : ChannelPool) : RunFresh p [] p
  | set {p q : ChannelPool} {df t : String} {ops : List PoolOp}
      (hdf : dget p.table df = none) (ht : dget p.rtable t = none)
      (h : RunFresh (p.setItem df t) ops q) :
      RunFresh p (PoolOp.set df t :: ops) q
  | remove {p p' q : ChannelPool} {df : String} {ops : List PoolOp}
      (h : p.delItem df = some p') (hrest : RunFresh p' ops q) :
      RunFresh p (PoolOp.remove df :: ops) q

/-! ## Invariant threaded through interleaved control commands (for C7) -/

/-- State invariant during a run of control commands while feature `o` is
connected to topic `t` on transport handle `n`: the session is live, the
inbound control topic is mapped (so acknowledgments can be published),
`o` maps to `t` in both directions, no other feature claims `t`, and the
dict keys are unique on both sides of the outbound pool. -/
def Inv7 (n : Nat) (o t : String) (ctx : Context) : Prop :=
  ctx.mqtt_client = some n ∧
  (dget ctx.i_chans.table "ctrl").isSome = true ∧
  dget ctx.o_chans.table o = some t ∧
  dget ctx.o_chans.rtable t = some o ∧
  (∀ f, f ≠ o → dget ctx.o_chans.table f ≠ some t) ∧
  (keys ctx.o_chans.table).Nodup ∧
  (keys ctx.o_chans.rtable).Nodup

/-! ## Concrete fixtures (used by counterexamples and witnesses) -/

/-- The server response of the end-to-end registration scenario in the
specification. -/
def scenarioMeta : RegMeta := ⟨"dev1", "h", 1883, "in/ctrl", "out/ctrl", 1⟩

/-- The caller arguments of the end-to-end registration scenario. -/
def scenarioArgs : RegisterArgs :=
  { url := some "http://server", idf_list := some [("temp", ["C"])] }

/-- A live registered session context: transport handle 1, control
channels mapped on both pools. -/
def ctxW : Context :=
  { mqtt_client := some 1,
    i_chans := ⟨[("ctrl", "in/ctrl")], [("in/ctrl", "ctrl")]⟩,
    o_chans := ⟨[("ctrl", "out/ctrl")], [("out/ctrl", "ctrl")]⟩,
    rev := some 1, url := some "http://server", app_id := some "id1" }

/-- `ctxW` after a CONNECT command mapped the input feature `temp`. -/
def ctxW2 : Context :=
  { ctxW with i_chans := ctxW.i_chans.setItem "temp" "app/123/temp" }

/-! ## Dict lemmas -/

theorem dget_eq_none_iff {l : List (String × String)} {k : String} :
    dget l k = none ↔ k ∉ keys l := by
  induction l with
  | nil => simp [dget, keys]
  | cons hd tl ih =>
    obtain ⟨a, b⟩ := hd
    by_cases h : a = k
    · subst h; simp [dget, keys]
    · simp [dget, keys, h, Ne.symm h, ih]

theorem dget_dset_self (l : List (String × String)) (k v : String) :
    dget (dset l k v) k = some v := by
  induction l with
  | nil => simp [dset, dget]
  | cons hd tl ih =>
    obtain ⟨a, b⟩ := hd
    by_cases h : a = k
    · subst h; simp [dset, dget]
    · simp [dset, dget, h, ih]

theorem dget_dset_ne (l : List (String × String)) {k k' : String} (v : String)
    (h : k' ≠ k) : dget (dset l k v) k' = dget l k' := by
  induction l with
  | nil => simp [dset, dget, Ne.symm h]
  | cons hd tl ih =>
    obtain ⟨a, b⟩ := hd
    by_cases ha : a = k
    · subst ha; simp [dset, dget, Ne.symm h]
    · simp [dset, dget, ha, ih]

theorem dset_eq_append {l : List (String × String)} {k : String} (v : String)
    (h : dget l k = none) : dset l k v = l ++ [(k, v)] := by
  induction l with
  | nil => simp [dset]
  | cons hd tl ih =>
    obtain ⟨a, b⟩ := hd
    by_cases ha : a = k
    · subst ha; simp [dget] at h
    · simp [dget, ha] at h
      simp [dset, ha, ih h]

theorem dget_append_of_none {l : List (String × String)} (m : List (String × String))
    {k : String} (h : dget l k = none) : dget (l ++ m) k = dget m k := by
  induction l with
  | nil => rfl
  | cons hd tl ih =>
    obtain ⟨a, b⟩ := hd
    by_cases ha : a = k
    · simp [dget, ha] at h
    · rw [List.cons_append]
      simp [dget, ha] at h ⊢
      exact ih h

theorem dget_append_of_some {l : List (String × String)} (m : List (String × String))
    {k x : String} (h : dget l k = some x) : dget (l ++ m) k = some x := by
  induction l with
  | nil => simp [dget] at h
  | cons hd tl ih =>
    obtain ⟨a, b⟩ := hd
    by_cases ha : a = k
    · rw [List.cons_append]
      simp [dget, ha] at h ⊢
      exact h
    · rw [List.cons_append]
      simp [dget, ha] at h ⊢
      exact ih h

theorem dget_ddel_ne (l : List (String × String)) {k k' : String} (h : k' ≠ k) :
    dget (ddel l k) k' = dget l k' := by
  induction l with
  | nil => simp [ddel]
  | cons hd tl ih =>
    obtain ⟨a, b⟩ := hd
    by_cases ha : a = k
    · subst ha; simp [ddel, dget, Ne.symm h]
    · simp [ddel, dget, ha, ih]

theorem dget_ddel_self {l : List (String × String)} {k : String}
    (h : (keys l).Nodup) : dget (ddel l k) k = none := by
  induction l with
  | nil => simp [ddel, dget]
  | cons hd tl ih =>
    obtain ⟨a, b⟩ := hd
    simp only [keys, List.map_cons, List.nodup_cons] at h
    by_cases ha : a = k
    · subst ha
      simp only [ddel, if_pos rfl]
      exact dget_eq_none_iff.mpr (by simpa [keys] using h.1)
    · simp only [ddel, ha, if_false, dget]
      exact ih (by simpa [keys] using h.2)

theorem keys_dset_of_some {l : List (String × String)} {k w : String} (v : String)
    (h : dget l k = some w) : keys (dset l k v) = keys l := by
  induction l with
  | nil => simp [dget] at h
  | cons hd tl ih =>
    obtain ⟨a, b⟩ := hd
    by_cases ha : a = k
    · simp [dset, keys, ha]
    · simp [dget, ha] at h
      have h2 := ih h
      unfold keys at h2 ⊢
      simp [dset, ha, h2]

theorem nodup_keys_dset {l : List (String × String)} (k v : String)
    (h : (keys l).Nodup) : (keys (dset l k v)).Nodup := by
  cases hk : dget l k with
  | some w => rw [keys_dset_of_some v hk]; exact h
  | none =>
    rw [dset_eq_append v hk]
    unfold keys at h ⊢
    rw [List.map_append, List.nodup_append]
    refine ⟨h, by simp, ?_⟩
    intro x hx hmem
    simp at hmem
    subst hmem
    exact dget_eq_none_iff.mp hk hx

theorem keys_ddel_sublist (l : List (String × String)) (k : String) :
    (keys (ddel l k)).Sublist (keys l) := by
  induction l with
  | nil => simp [ddel, keys]
  | cons hd tl ih =>
    obtain ⟨a, b⟩ := hd
    by_cases ha : a = k
    · subst ha
      simp only [ddel, if_pos rfl, keys, List.map_cons]
      exact List.sublist_cons_self _ _
    · simp only [ddel, ha, if_false, keys, List.map_cons]
      exact List.Sublist.cons₂ _ ih

theorem nodup_keys_ddel {l : List (String × String)} {k : String}
    (h : (keys l).Nodup) : (keys (ddel l k)).Nodup :=
  List.Nodup.sublist (keys_ddel_sublist l k) h

/-! ## ChannelPool invariant lemmas -/

theorem poolWf_empty : poolWf ChannelPool.empty := by
  refine ⟨fun t f => ?_, ?_, ?_⟩ <;> simp [ChannelPool.empty, dget, keys]

theorem poolWf_setItem {p : ChannelPool} {df t : String} (hwf : poolWf p)
    (hdf : dget p.table df = none) (ht : dget p.rtable t = none) :
    poolWf (p.setItem df t) := by
  obtain ⟨hc, hn1, hn2⟩ := hwf
  refine ⟨?_, nodup_keys_dset _ _ hn1, nodup_keys_dset _ _ hn2⟩
  intro u f
  show dget (dset p.rtable t df) u = some f ↔ dget (dset p.table df t) f = some u
  rw [dset_eq_append df ht, dset_eq_append t hdf]
  constructor
  · intro hL
    cases hru : dget p.rtable u with
    | some f0 =>
      rw [dget_append_of_some _ hru] at hL
      injection hL with hf0
      rw [hf0] at hru
      exact dget_append_of_some _ ((hc u f).mp hru)
    | none =>
      rw [dget_append_of_none _ hru] at hL
      by_cases htu : t = u
      · simp [dget, htu] at hL
        rw [← hL, dget_append_of_none _ hdf]
        simp [dget, htu]
      · simp [dget, htu] at hL
  · intro hR
    cases htf : dget p.table f with
    | some u0 =>
      rw [dget_append_of_some _ htf] at hR
      injection hR with hu0
      rw [hu0] at htf
      exact dget_append_of_some _ ((hc u f).mpr htf)
    | none =>
      rw [dget_append_of_none _ htf] at hR
      by_cases hdff : df = f
      · simp [dget, hdff] at hR
        rw [← hR, dget_append_of_none _ ht]
        simp [dget, hdff]
      · simp [dget, hdff] at hR

theorem poolWf_delItem {p q : ChannelPool} {df : String} (hwf : poolWf p)
    (h : p.delItem df = some q) : poolWf q := by
  obtain ⟨hc, hn1, hn2⟩ := hwf
  unfold ChannelPool.delItem at h
  cases htab : dget p.table df with
  | none => rw [htab] at h; cases h
  | some t0 =>
    rw [htab] at h
    have hrt : dget p.rtable t0 = some df := (hc t0 df).mpr htab
    simp only [hrt, Option.isSome_some, if_true, Option.some.injEq] at h
    subst h
    refine ⟨?_, nodup_keys_ddel hn1, nodup_keys_ddel hn2⟩
    intro u f
    show dget (ddel p.rtable t0) u = some f ↔ dget (ddel p.table df) f = some u
    by_cases htu : u = t0
    · constructor
      · intro hL
        rw [htu, dget_ddel_self hn2] at hL
        cases hL
      · intro hR
        by_cases hff : f = df
        · rw [hff, dget_ddel_self hn1] at hR
          cases hR
        · rw [dget_ddel_ne _ hff] at hR
          have h2 := (hc u f).mpr hR
          rw [htu, hrt] at h2
          injection h2 with h3
          exact absurd h3.symm hff
    · rw [dget_ddel_ne _ htu]
      by_cases hff : f = df
      · constructor
        · intro hL
          rw [hff] at hL
          have h2 := (hc u df).mp hL
          rw [htab] at h2
          injection h2 with h3
          exact absurd h3.symm htu
        · intro hR
          rw [hff, dget_ddel_self hn1] at hR
          cases hR
      · rw [dget_ddel_ne _ hff]
        exact hc u f

/-- Well-formedness is preserved along any fresh run of pool operations. -/
theorem pool_wf_run {p q : ChannelPool} {ops : List PoolOp}
    (hrun : RunFresh p ops q) : poolWf p → poolWf q := by
  induction hrun with
  | nil => exact id
  | set hdf ht h ih => exact fun hwf => ih (poolWf_setItem hwf hdf ht)
  | remove h hrest ih => exact fun hwf => ih (poolWf_delItem hwf h)

/-! ## C1: ChannelPool forward/reverse consistency -/

/-- C1 counterexample: the claim fails on the code.  Starting from the
consistent empty pool, re-setting feature `f` from topic `t1` to topic
`t2` leaves the stale reverse entry `t1 -> f` in `rtable`
(`__setitem__` never deletes the old reverse entry), while `f` forwards
to `t2` — so the pool is no longer mutually consistent. -/
theorem C1_pool_counterexample :
    poolConsistent ChannelPool.empty ∧
    dget (((ChannelPool.empty.setItem "f" "t1").setItem "f" "t2").rtable) "t1" =
      some "f" ∧
    dget (((ChannelPool.empty.setItem "f" "t1").setItem "f" "t2").table) "f" =
      some "t2" ∧
    ¬ poolConsistent ((ChannelPool.empty.setItem "f" "t1").setItem "f" "t2") := by
  refine ⟨fun u f => ?_, rfl, rfl, fun hcon => ?_⟩
  · simp [ChannelPool.empty, dget]
  · have h1 : dget (((ChannelPool.empty.setItem "f" "t1").setItem "f" "t2").rtable)
        "t1" = some "f" := rfl
    have h2 := (hcon "t1" "f").mp h1
    exact absurd h2 (by decide)

/-- C1 (amended): for every sequence of `set`/`remove` operations in which
each `set` installs a currently-unmapped feature with a topic not
currently present in the reverse index, the forward and reverse mappings
remain mutually consistent.  (As stated the claim is false: a re-`set` of
an already-mapped feature does not drop the old reverse entry — see the
counterexample.) -/
theorem C1_pool_consistency (p q : ChannelPool) (ops : List PoolOp)
    (hwf : poolWf p) (hrun : RunFresh p ops q) : poolConsistent q :=
  (pool_wf_run hrun hwf).1

/-- Witness for C1: running `set a t1; set b t2; remove a` from the empty
pool ends in the pool mapping only `b` to `t2`, which is consistent. -/
theorem C1_pool_consistency_witness :
    poolConsistent (ChannelPool.mk [("b", "t2")] [("t2", "b")]) := by
  refine C1_pool_consistency ChannelPool.empty _
    [PoolOp.set "a" "t1", PoolOp.set "b" "t2", PoolOp.remove "a"]
    poolWf_empty ?_
  exact RunFresh.set rfl rfl (RunFresh.set rfl rfl
    (RunFresh.remove rfl (RunFresh.nil _)))

/-! ## Register: precondition failures and failure-state preservation -/

/-- Register never touches the transport handle in the embedded code: the
only statement assigning `mqtt_client` (line 363) is unreachable, because
line 356 raises first. -/
theorem register_mqtt_client_unchanged (ctx : Context) (uuidOk : String → Bool)
    (freshId : String) (a : RegisterArgs) (http : RegHttpResult) :
    (Client.register ctx uuidOk freshId a http).ctx.mqtt_client =
      ctx.mqtt_client := by
  cases hm : ctx.mqtt_client.isSome with
  | true => simp [Client.register, hm]
  | false =>
    cases hu : _invalid_url a.url with
    | true => simp [Client.register, hm, hu]
    | false =>
      cases hid : truthyStr a.id_ with
      | none =>
        cases http with
        | connError => simp [Client.register, registerHttp, hm, hu, hid]
        | response status reason meta =>
          by_cases hs : status = 200 <;>
            simp [Client.register, registerHttp, hm, hu, hid, hs]
      | some s =>
        cases hok : uuidOk s with
        | false => simp [Client.register, hm, hu, hid, hok]
        | true =>
          cases http with
          | connError => simp [Client.register, registerHttp, hm, hu, hid, hok]
          | response status reason meta =>
            by_cases hs : status = 200 <;>
              simp [Client.register, registerHttp, hm, hu, hid, hok, hs]

/-- From an unregistered context, no branch of register produces the
already-registered error. -/
theorem register_not_alreadyRegistered {ctx : Context} (uuidOk : String → Bool)
    (freshId : String) (a : RegisterArgs) (http : RegHttpResult)
    (h : ctx.mqtt_client = none) :
    (Client.register ctx uuidOk freshId a http).result ≠
      Except.error (.registrationError .alreadyRegistered) := by
  have hm : ctx.mqtt_client.isSome = false := by simp [h]
  cases hu : _invalid_url a.url with
  | true => simp [Client.register, hm, hu]
  | false =>
    cases hid : truthyStr a.id_ with
    | none =>
      cases http with
      | connError => simp [Client.register, registerHttp, hm, hu, hid]
      | response status reason meta =>
        by_cases hs : status = 200 <;>
          simp [Client.register, registerHttp, hm, hu, hid, hs]
    | some s =>
      cases hok : uuidOk s with
      | false => simp [Client.register, hm, hu, hid, hok]
      | true =>
        cases http with
        | connError => simp [Client.register, registerHttp, hm, hu, hid, hok]
        | response status reason meta =>
          by_cases hs : status = 200 <;>
            simp [Client.register, registerHttp, hm, hu, hid, hok, hs]

/-- C4: register fails with a `RegistrationError` and issues no HTTP
request when a precondition is violated: a live transport handle yields
the already-registered error with no state change and no action; an
invalid (absent or empty) URL yields the invalid-url error with no
action; a truthy but malformed supplied identity (rejected by the UUID
parser) yields the invalid-id error with no action. -/
theorem C4_register_preconditions (ctx : Context) (uuidOk : String → Bool)
    (freshId : String) (a : RegisterArgs) (http : RegHttpResult) (s : String) :
    (ctx.mqtt_client.isSome = true →
      Client.register ctx uuidOk freshId a http =
        ⟨[], ctx, Except.error (.registrationError .alreadyRegistered)⟩) ∧
    (ctx.mqtt_client = none → _invalid_url a.url = true →
      (Client.register ctx uuidOk freshId a http).result =
        Except.error (.registrationError .invalidUrl) ∧
      (Client.register ctx uuidOk freshId a http).actions = []) ∧
    (ctx.mqtt_client = none → _invalid_url a.url = false →
      truthyStr a.id_ = some s → uuidOk s = false →
      (Client.register ctx uuidOk freshId a http).result =
        Except.error (.registrationError .invalidId) ∧
      (Client.register ctx uuidOk freshId a http).actions = []) := by
  refine ⟨fun h => ?_, fun h0 h1 => ?_, fun h0 h1 h2 h3 => ?_⟩
  · simp [Client.register, h]
  · constructor <;> simp [Client.register, h0, h1]
  · constructor <;> simp [Client.register, h0, h1, h2, h3]

/-- Witness for C4: the three precondition failures at concrete inputs. -/
theorem C4_register_preconditions_witness :
    Client.register { Context.init with mqtt_client := some 1 } (fun _ => false)
        "g" {} RegHttpResult.connError =
      ⟨[], { Context.init with mqtt_client := some 1 },
        Except.error (.registrationError .alreadyRegistered)⟩ ∧
    (Client.register Context.init (fun _ => false) "g" {}
        RegHttpResult.connError).result =
      Except.error (.registrationError .invalidUrl) ∧
    (Client.register Context.init (fun _ => false) "g"
        { url := some "http://server", id_ := some "bogus" }
        RegHttpResult.connError).result =
      Except.error (.registrationError .invalidId) :=
  ⟨(C4_register_preconditions { Context.init with mqtt_client := some 1 }
      (fun _ => false) "g" {} RegHttpResult.connError "s").1 rfl,
   ((C4_register_preconditions Context.init (fun _ => false) "g" {}
      RegHttpResult.connError "s").2.1 rfl rfl).1,
   ((C4_register_preconditions Context.init (fun _ => false) "g"
      { url := some "http://server", id_ := some "bogus" }
      RegHttpResult.connError "bogus").2.2 rfl rfl rfl rfl).1⟩

/-- C10: whenever register fails, starting from an unregistered session,
the transport handle is still unset, and a subsequent register call on
the same context is never rejected with the already-registered error. -/
theorem C10_register_failure_leaves_unregistered (ctx : Context)
    (uuidOk : String → Bool) (freshId : String) (a : RegisterArgs)
    (http : RegHttpResult) (e : PyError)
    (h0 : ctx.mqtt_client = none)
    (_herr : (Client.register ctx uuidOk freshId a http).result = Except.error e) :
    (Client.register ctx uuidOk freshId a http).ctx.mqtt_client = none ∧
    ∀ (uuidOk2 : String → Bool) (freshId2 : String) (a2 : RegisterArgs)
      (http2 : RegHttpResult),
      (Client.register (Client.register ctx uuidOk freshId a http).ctx
          uuidOk2 freshId2 a2 http2).result ≠
        Except.error (.registrationError .alreadyRegistered) := by
  have hpres := register_mqtt_client_unchanged ctx uuidOk freshId a http
  rw [h0] at hpres
  exact ⟨hpres, fun u2 f2 a2 h2 =>
    register_not_alreadyRegistered u2 f2 a2 h2 hpres⟩

/-- Witness for C10: a register call failing on an invalid URL leaves the
handle unset and a retry is not rejected as already registered. -/
theorem C10_register_failure_witness :
    (Client.register Context.init (fun _ => true) "g" {}
        RegHttpResult.connError).ctx.mqtt_client = none ∧
    (Client.register
        (Client.register Context.init (fun _ => true) "g" {}
          RegHttpResult.connError).ctx
        (fun _ => true) "g" { url := some "u" } RegHttpResult.connError).result ≠
      Except.error (.registrationError .alreadyRegistered) := by
  have h := C10_register_failure_leaves_unregistered Context.init (fun _ => true)
    "g" {} RegHttpResult.connError (.registrationError .invalidUrl) rfl rfl
  exact ⟨h.1, h.2 (fun _ => true) "g" { url := some "u" } RegHttpResult.connError⟩

/-- C2 is a code bug: on the successful (HTTP 200) path, line 356 of
`dan.py` reads `ctx = self.contex` — an attribute that does not exist —
so register raises `AttributeError` instead of populating the Session
Context and returning it.  At the specification's end-to-end scenario
input (server responds `{"name": "dev1", ...}`), the embedded register
raises the attribute error, the context name is never set, the transport
handle is never created, and the only action is the HTTP PUT itself.
(Even with line 356 fixed, line 363 would raise again: it calls
`uuid4.hex()` on the function object instead of `uuid4().hex`.) -/
theorem C2_register_success_crashes :
    (Client.register Context.init (fun _ => true) "generated-uuid" scenarioArgs
        (RegHttpResult.response 200 "" scenarioMeta)).result =
      Except.error (.attributeError "contex") ∧
    (Client.register Context.init (fun _ => true) "generated-uuid" scenarioArgs
        (RegHttpResult.response 200 "" scenarioMeta)).ctx.name = none ∧
    (Client.register Context.init (fun _ => true) "generated-uuid" scenarioArgs
        (RegHttpResult.response 200 "" scenarioMeta)).ctx.mqtt_client = none ∧
    (Client.register Context.init (fun _ => true) "generated-uuid" scenarioArgs
        (RegHttpResult.response 200 "" scenarioMeta)).actions =
      [Action.httpPut "http://server" "generated-uuid"
        { idf_list := some [("temp", ["C"])] }] :=
  ⟨rfl, rfl, rfl, rfl⟩

/-- C3 is a code bug: for a control message carrying neither `idf` nor
`odf`, or an unknown command, no branch of the dispatch assigns
`handling_result`, and line 252 (`if handling_result is True`) raises
`UnboundLocalError` in the delivery thread: no reply is emitted and the
handler crashes instead of sending a handled error acknowledgment.  The
well-formed part of the claim does hold and is included: an application
callback failure is converted into an `{msg_id, state: error, reason}`
reply on the inbound control topic rather than propagated. -/
theorem C3_malformed_signal_crashes :
    Client.handle_signal ctxW (fun _ _ => CbResult.isTrue) 1
        ⟨"CONNECT", 7, none, none, none⟩ =
      Except.error (.unboundLocal "handling_result") ∧
    Client.handle_signal ctxW (fun _ _ => CbResult.isTrue) 1
        ⟨"STRANGE", 8, some "f", none, some "t"⟩ =
      Except.error (.unboundLocal "handling_result") ∧
    Client.handle_signal ctxW (fun _ _ => CbResult.falseReason "cb failed") 1
        ⟨"CONNECT", 7, some "temp", none, some "app/123/temp"⟩ =
      Except.ok ({ ctxW with i_chans := ctxW.i_chans.setItem "temp" "app/123/temp" },
        [Action.publish "in/ctrl" (MqttPayload.ctrlReply 7 "error" (some "cb failed"))
          2 false]) :=
  ⟨rfl, rfl, rfl⟩

/-- C5: with a live session, push on an unmapped feature fails softly
(returns `False`) with no transport call; push on a mapped feature
publishes the wrapped payload on the resolved topic and waits for the
delivery confirmation exactly when `block` is set; a non-list value is
wrapped in a single-element list and a list value is passed through. -/
theorem C5_push (ctx : Context) (idf : String) (data : PyVal) (block : Bool)
    (n : Nat) (hreg : ctx.mqtt_client = some n) :
    (ctx.i_chans.get idf = none →
      Client.push ctx idf data block = ⟨[], Except.ok false, false⟩) ∧
    (∀ t, ctx.i_chans.get idf = some t →
      Client.push ctx idf data block =
        ⟨[Action.publish t (.data (wrapData data)) 0 false],
          Except.ok true, block⟩) ∧
    (∀ vs, wrapData (PyVal.list vs) = vs) ∧
    ((∀ vs, data ≠ PyVal.list vs) → wrapData data = [data]) := by
  refine ⟨fun h => ?_, fun t h => ?_, fun vs => rfl, fun h => ?_⟩
  · simp [Client.push, hreg, h]
  · simp [Client.push, hreg, h]
  · cases data <;> first | rfl | exact absurd rfl (h _)

/-- Witness for C5: concrete pushes on the registered fixture context. -/
theorem C5_push_witness :
    Client.push ctxW2 "nomap" (PyVal.num 5) false = ⟨[], Except.ok false, false⟩ ∧
    Client.push ctxW2 "temp" (PyVal.num 25) true =
      ⟨[Action.publish "app/123/temp" (.data [PyVal.num 25]) 0 false],
        Except.ok true, true⟩ ∧
    wrapData (PyVal.list [PyVal.num 1, PyVal.num 2]) = [PyVal.num 1, PyVal.num 2] ∧
    wrapData (PyVal.num 25) = [PyVal.num 25] :=
  ⟨(C5_push ctxW2 "nomap" (PyVal.num 5) false 1 rfl).1 rfl,
   (C5_push ctxW2 "temp" (PyVal.num 25) true 1 rfl).2.1 "app/123/temp" rfl,
   (C5_push ctxW2 "temp" (PyVal.num 25) true 1 rfl).2.2.1 _,
   (C5_push ctxW2 "temp" (PyVal.num 25) true 1 rfl).2.2.2 (fun _ hv => nomatch hv)⟩

/-- C6: with a live session whose inbound control topic is mapped, a
deregister whose DELETE succeeds publishes the retained offline presence
message (qos 2) on the inbound control topic, issues the DELETE to
`url/app_id` with the current revision, blocks until the transport
disconnect is observed (the `waitDisconnect` barrier precedes the
return), and clears the transport handle, leaving the session
unregistered. -/
theorem C6_deregister (ctx : Context) (n : Nat) (tc : String) (reason : String)
    (hreg : ctx.mqtt_client = some n)
    (hctrl : ctx.i_chans.get "ctrl" = some tc) :
    Client.deregister ctx (DelHttpResult.response 200 reason) =
      ⟨[Action.publish tc (.presence "offline" ctx.rev) 2 true,
        Action.httpDelete ctx.url ctx.app_id ctx.rev,
        Action.waitDisconnect],
       { ctx with mqtt_client := none }, Except.ok ()⟩ := by
  simp [Client.deregister, hreg, hctrl]

/-- Witness for C6: deregistering the registered fixture context. -/
theorem C6_deregister_witness :
    Client.deregister ctxW (DelHttpResult.response 200 "") =
      ⟨[Action.publish "in/ctrl" (.presence "offline" (some 1)) 2 true,
        Action.httpDelete (some "http://server") (some "id1") (some 1),
        Action.waitDisconnect],
       { ctxW with mqtt_client := none }, Except.ok ()⟩ :=
  C6_deregister ctxW 1 "in/ctrl" "" rfl rfl

/-- C8: on a transport-level reconnect (`_is_reconnect` already set),
every entry of the outbound pool — the control topic together with all
active data channels — is re-subscribed (qos 2), the registered
on-connect callback is invoked exactly when one was supplied, and no
presence message (in particular no second online message) is
published. -/
theorem C8_reconnect_resubscribes (ctx : Context) :
    ∃ out : ConnectOutcome,
      Client.on_connect ctx true = Except.ok out ∧
      out.actions = (ctx.o_chans.table.map fun p => Action.subscribe p.2 2)
        ++ (if ctx.register_callback then [Action.invokeRegisterCallback] else []) ∧
      (∀ p ∈ ctx.o_chans.table, Action.subscribe p.2 2 ∈ out.actions) ∧
      (∀ topic payload qos retain,
        Action.publish topic payload qos retain ∉ out.actions) ∧
      (ctx.register_callback = true →
        Action.invokeRegisterCallback ∈ out.actions) ∧
      out.is_reconnect = true := by
  refine ⟨_, rfl, rfl, ?_, ?_, ?_, rfl⟩
  · intro p hp
    exact List.mem_append_left _ (List.mem_map.mpr ⟨p, hp, rfl⟩)
  · intro topic payload qos retain hmem
    rcases List.mem_append.mp hmem with h | h
    · rcases List.mem_map.mp h with ⟨q, _, heq⟩
      cases heq
    · revert h
      split <;> simp
  · intro hcb
    exact List.mem_append_right _ (by simp [hcb])

/-- C9: while the session holds no transport handle, both push and
deregister fail with the not-registered `RegistrationError`. -/
theorem C9_not_registered (ctx : Context) (idf : String) (data : PyVal)
    (block : Bool) (http : DelHttpResult) (h : ctx.mqtt_client = none) :
    (Client.push ctx idf data block).result =
      Except.error (.registrationError .notRegistered) ∧
    (Client.deregister ctx http).result =
      Except.error (.registrationError .notRegistered) := by
  constructor <;> simp [Client.push, Client.deregister, h]

/-- Witness for C9: push and deregister on a fresh context. -/
theorem C9_not_registered_witness :
    (Client.push Context.init "temp" (PyVal.num 1) false).result =
      Except.error (.registrationError .notRegistered) ∧
    (Client.deregister Context.init DelHttpResult.connError).result =
      Except.error (.registrationError .notRegistered) :=
  C9_not_registered Context.init "temp" (PyVal.num 1) false
    DelHttpResult.connError rfl

/-! ## C7: CONNECT/DISCONNECT on an output feature under interleaving -/
/-- A successful dispatch step whose command names neither feature `o`,
nor topic `t`, nor the `ctrl` pool entry, preserves the transport handle,
the outbound-pool part of `Inv7`, and the forward `ctrl` entry of the
outbound pool. -/
theorem inv7_mutation {n : Nat} {o t : String} {ctx c1 : Context}
    {onSignal : String → List String → CbResult} {m : Signal}
    {acts0 : List Action} {hres : Option CbResult}
    (hm1 : m.odf ≠ some o) (hm2 : m.topic ≠ some t) (hm3 : m.odf ≠ some "ctrl")
    (hmut : signalMutation ctx onSignal m = Except.ok (c1, acts0, hres))
    (hinv : Inv7 n o t ctx) :
    c1.mqtt_client = ctx.mqtt_client ∧
    dget c1.o_chans.table o = some t ∧
    dget c1.o_chans.rtable t = some o ∧
    (∀ f, f ≠ o → dget c1.o_chans.table f ≠ some t) ∧
    (keys c1.o_chans.table).Nodup ∧
    (keys c1.o_chans.rtable).Nodup ∧
    dget c1.o_chans.table "ctrl" = dget ctx.o_chans.table "ctrl" := by
  obtain ⟨_, _, hto, hrt, hother, hnd1, hnd2⟩ := hinv
  obtain ⟨cmd, mid, midf, modf, mtopic⟩ := m
  by_cases hc1 : cmd = "CONNECT"
  · subst hc1
    cases midf with
    | some idf =>
      cases mtopic with
      | none => simp [signalMutation] at hmut
      | some tp =>
        simp [signalMutation] at hmut
        obtain ⟨h1, -, -⟩ := hmut
        rw [← h1]
        exact ⟨rfl, hto, hrt, hother, hnd1, hnd2, rfl⟩
    | none =>
      cases modf with
      | some odf =>
        cases mtopic with
        | none => simp [signalMutation] at hmut
        | some tp =>
          have hodf : odf ≠ o := fun h => hm1 (congrArg some h)
          have htp : tp ≠ t := fun h => hm2 (congrArg some h)
          have hodfc : odf ≠ "ctrl" := fun h => hm3 (congrArg some h)
          simp [signalMutation, ChannelPool.get, ChannelPool.setItem,
            dget_dset_self] at hmut
          obtain ⟨h1, -, -⟩ := hmut
          rw [← h1]
          refine ⟨rfl, ?_, ?_, ?_, nodup_keys_dset _ _ hnd1,
            nodup_keys_dset _ _ hnd2, ?_⟩
          · show dget (dset ctx.o_chans.table odf tp) o = some t
            rw [dget_dset_ne _ _ (Ne.symm hodf)]
            exact hto
          · show dget (dset ctx.o_chans.rtable tp odf) t = some o
            rw [dget_dset_ne _ _ (Ne.symm htp)]
            exact hrt
          · intro f hf
            show dget (dset ctx.o_chans.table odf tp) f ≠ some t
            by_cases hfo : f = odf
            · rw [hfo, dget_dset_self]
              intro hcon
              injection hcon with hx
              exact htp hx
            · rw [dget_dset_ne _ _ hfo]
              exact hother f hf
          · show dget (dset ctx.o_chans.table odf tp) "ctrl" =
              dget ctx.o_chans.table "ctrl"
            exact dget_dset_ne _ _ (Ne.symm hodfc)
      | none =>
        simp [signalMutation] at hmut
        obtain ⟨h1, -, -⟩ := hmut
        rw [← h1]
        exact ⟨rfl, hto, hrt, hother, hnd1, hnd2, rfl⟩
  · by_cases hc2 : cmd = "DISCONNECT"
    · subst hc2
      cases midf with
      | some idf =>
        cases hdel : ctx.i_chans.delItem idf with
        | none => simp [signalMutation, hdel] at hmut
        | some p =>
          simp [signalMutation, hdel] at hmut
          obtain ⟨h1, -, -⟩ := hmut
          rw [← h1]
          exact ⟨rfl, hto, hrt, hother, hnd1, hnd2, rfl⟩
      | none =>
        cases modf with
        | some odf =>
          have hodf : odf ≠ o := fun h => hm1 (congrArg some h)
          have hodfc : odf ≠ "ctrl" := fun h => hm3 (congrArg some h)
          cases hget : ChannelPool.get ctx.o_chans odf with
          | none => simp [signalMutation, hget] at hmut
          | some t2 =>
            have ht2 : t2 ≠ t := by
              intro h
              rw [h] at hget
              exact hother odf hodf hget
            cases hdel : ctx.o_chans.delItem odf with
            | none => simp [signalMutation, hget, hdel] at hmut
            | some p =>
              simp [signalMutation, hget, hdel] at hmut
              obtain ⟨h1, -, -⟩ := hmut
              rw [← h1]
              have hget' : dget ctx.o_chans.table odf = some t2 := hget
              unfold ChannelPool.delItem at hdel
              rw [hget'] at hdel
              cases hrt2 : (dget ctx.o_chans.rtable t2).isSome with
              | false => simp [hrt2] at hdel
              | true =>
                simp only [hrt2, if_true, Option.some.injEq] at hdel
                rw [← hdel]
                refine ⟨rfl, ?_, ?_, ?_, nodup_keys_ddel hnd1,
                  nodup_keys_ddel hnd2, ?_⟩
                · show dget (ddel ctx.o_chans.table odf) o = some t
                  rw [dget_ddel_ne _ (Ne.symm hodf)]
                  exact hto
                · show dget (ddel ctx.o_chans.rtable t2) t = some o
                  rw [dget_ddel_ne _ (Ne.symm ht2)]
                  exact hrt
                · intro f hf
                  show dget (ddel ctx.o_chans.table odf) f ≠ some t
                  by_cases hfo : f = odf
                  · rw [hfo, dget_ddel_self hnd1]
                    intro hcon
                    cases hcon
                  · rw [dget_ddel_ne _ hfo]
                    exact hother f hf
                · show dget (ddel ctx.o_chans.table odf) "ctrl" =
                    dget ctx.o_chans.table "ctrl"
                  exact dget_ddel_ne _ (Ne.symm hodfc)
        | none =>
          simp [signalMutation, hc1] at hmut
          obtain ⟨h1, -, -⟩ := hmut
          rw [← h1]
          exact ⟨rfl, hto, hrt, hother, hnd1, hnd2, rfl⟩
    · simp [signalMutation, hc1, hc2] at hmut
      obtain ⟨h1, -, -⟩ := hmut
      rw [← h1]
      exact ⟨rfl, hto, hrt, hother, hnd1, hnd2, rfl⟩

/-- A successful control-branch step touching neither `o`, `t`, nor the
`ctrl` entry preserves the full invariant (the reply publish
re-establishes inbound-control-topic presence) and the forward `ctrl`
entry of the outbound pool. -/
theorem inv7_step {n : Nat} {o t : String} {ctx ctx' : Context}
    {onSignal : String → List String → CbResult} {m : Signal}
    {acts : List Action}
    (hm1 : m.odf ≠ some o) (hm2 : m.topic ≠ some t) (hm3 : m.odf ≠ some "ctrl")
    (hstep : Client.handle_signal ctx onSignal n m = Except.ok (ctx', acts))
    (hinv : Inv7 n o t ctx) :
    Inv7 n o t ctx' ∧
    dget ctx'.o_chans.table "ctrl" = dget ctx.o_chans.table "ctrl" := by
  have hcli := hinv.1
  cases hmut : signalMutation ctx onSignal m with
  | error e => simp [Client.handle_signal, hcli, hmut] at hstep
  | ok trip =>
    obtain ⟨c1, acts0, hres⟩ := trip
    cases hres with
    | none => simp [Client.handle_signal, hcli, hmut] at hstep
    | some r =>
      cases hic : ChannelPool.get c1.i_chans "ctrl" with
      | none => simp [Client.handle_signal, hcli, hmut, hic] at hstep
      | some ic =>
        simp [Client.handle_signal, hcli, hmut, hic] at hstep
        obtain ⟨h1, -⟩ := hstep
        rw [← h1]
        obtain ⟨hq1, hq2, hq3, hq4, hq5, hq6, hq7⟩ :=
          inv7_mutation hm1 hm2 hm3 hmut hinv
        refine ⟨⟨hq1.trans hcli, ?_, hq2, hq3, hq4, hq5, hq6⟩, hq7⟩
        have hic' : dget c1.i_chans.table "ctrl" = some ic := hic
        rw [hic']
        rfl

/-- One delivered message — on whatever topic — preserves the invariant
and the control entry: a control-topic delivery goes through
`inv7_step`, and a data-topic delivery mutates nothing. -/
theorem inv7c_step {n : Nat} {o t ct0 : String} {ctx ctx' : Context}
    {onSignal : String → List String → CbResult} {tp : String} {m : Signal}
    {acts : List Action}
    (hm1 : m.odf ≠ some o) (hm2 : m.topic ≠ some t) (hm3 : m.odf ≠ some "ctrl")
    (hstep : Client.on_message ctx onSignal n tp m = Except.ok (ctx', acts))
    (hinv : Inv7 n o t ctx)
    (hctrl : dget ctx.o_chans.table "ctrl" = some ct0) :
    Inv7 n o t ctx' ∧ dget ctx'.o_chans.table "ctrl" = some ct0 := by
  have hcli := hinv.1
  have hctrl' : ChannelPool.get ctx.o_chans "ctrl" = some ct0 := hctrl
  by_cases htp : tp = ct0
  · have hsig : Client.handle_signal ctx onSignal n m = Except.ok (ctx', acts) := by
      simpa [Client.on_message, hcli, hctrl', htp] using hstep
    obtain ⟨hi, hpres⟩ := inv7_step hm1 hm2 hm3 hsig hinv
    exact ⟨hi, hpres.trans hctrl⟩
  · cases hdf : ChannelPool.df ctx.o_chans tp with
    | none =>
      have h1 : ctx = ctx' :=
        (by simpa [Client.on_message, hcli, hctrl', htp, hdf] using hstep :
          ctx = ctx' ∧ [] = acts).1
      rw [← h1]
      exact ⟨hinv, hctrl⟩
    | some df =>
      have h1 : ctx = ctx' :=
        (by simpa [Client.on_message, hcli, hctrl', htp, hdf] using hstep :
          ctx = ctx' ∧ [Action.onData df] = acts).1
      rw [← h1]
      exact ⟨hinv, hctrl⟩

/-- The invariant and the control entry survive any successful run of
interleaved deliveries whose commands never name feature `o`, topic `t`,
or the `ctrl` entry. -/
theorem inv7c_run {n : Nat} {o t ct0 : String}
    {onSignal : String → List String → CbResult} {ms : List (String × Signal)} :
    ∀ {ctx ctx2 : Context} {acts2 : List Action},
    (∀ p ∈ ms, p.2.odf ≠ some o ∧ p.2.topic ≠ some t ∧ p.2.odf ≠ some "ctrl") →
    runMsgs ctx onSignal n ms = Except.ok (ctx2, acts2) →
    Inv7 n o t ctx → dget ctx.o_chans.table "ctrl" = some ct0 →
    Inv7 n o t ctx2 ∧ dget ctx2.o_chans.table "ctrl" = some ct0 := by
  induction ms with
  | nil =>
    intro ctx ctx2 acts2 _ hrun hinv hctrl
    simp [runMsgs] at hrun
    obtain ⟨h1, -⟩ := hrun
    rw [← h1]
    exact ⟨hinv, hctrl⟩
  | cons p rest ih =>
    obtain ⟨tp, m⟩ := p
    intro ctx ctx2 acts2 hms hrun hinv hctrl
    cases hstep : Client.on_message ctx onSignal n tp m with
    | error e => simp [runMsgs, hstep] at hrun
    | ok pr =>
      obtain ⟨c1, a1⟩ := pr
      cases hrest : runMsgs c1 onSignal n rest with
      | error e => simp [runMsgs, hstep, hrest] at hrun
      | ok pr2 =>
        obtain ⟨c2, a2⟩ := pr2
        simp [runMsgs, hstep, hrest] at hrun
        have h0 := hms (tp, m) (List.mem_cons_self _ _)
        have hs1 := inv7c_step h0.1 h0.2.1 h0.2.2 hstep hinv hctrl
        have h2 := ih (fun p' hp' => hms p' (List.mem_cons_of_mem _ hp'))
          hrest hs1.1 hs1.2
        rw [← hrun.1]
        exact h2

/-- C7: a CONNECT command carrying an `odf`, delivered on the control
topic, installs the pool entry and issues a subscribe for the topic;
after any interleaved successful deliveries (through the full line-214
dispatch of `_on_message`) whose commands name neither this feature, nor
its topic, nor the `ctrl` pool entry, the DISCONNECT for the same `odf`
delivered on the control topic performs exactly one unsubscribe — for
the feature's current topic — and removes the pool entry.  (An
interleaved `DISCONNECT` with `odf = "ctrl"` would delete the control
entry and make the next delivery raise `KeyError` at line 214, and a
re-topic of the `ctrl` entry would divert control deliveries to the data
path, hence the `ctrl` side condition.) -/
theorem C7_connect_disconnect (ctx0 : Context)
    (onSignal : String → List String → CbResult) (n : Nat)
    (o t ic0 ct0 : String) (mid1 mid2 : Nat) (ms : List (String × Signal))
    (ctx2 : Context) (acts2 : List Action)
    (hcli : ctx0.mqtt_client = some n)
    (hic : dget ctx0.i_chans.table "ctrl" = some ic0)
    (hoc : dget ctx0.o_chans.table "ctrl" = some ct0)
    (hno : o ≠ "ctrl")
    (hfresh : ∀ f, dget ctx0.o_chans.table f ≠ some t)
    (hnd1 : (keys ctx0.o_chans.table).Nodup)
    (hnd2 : (keys ctx0.o_chans.rtable).Nodup)
    (hms : ∀ p ∈ ms, p.2.odf ≠ some o ∧ p.2.topic ≠ some t ∧
      p.2.odf ≠ some "ctrl")
    (hrun : runMsgs { ctx0 with o_chans := ctx0.o_chans.setItem o t }
        onSignal n ms = Except.ok (ctx2, acts2)) :
    Client.on_message ctx0 onSignal n ct0
        ⟨"CONNECT", mid1, none, some o, some t⟩ =
      Except.ok ({ ctx0 with o_chans := ctx0.o_chans.setItem o t },
        [Action.subscribe t 0,
         Action.publish ic0 (replyOf mid1 (onSignal "CONNECT" [o])) 2 false]) ∧
    dget ({ ctx0 with o_chans := ctx0.o_chans.setItem o t }).o_chans.table o =
      some t ∧
    ∃ ctx3 acts3,
      Client.on_message ctx2 onSignal n ct0
          ⟨"DISCONNECT", mid2, none, some o, none⟩ = Except.ok (ctx3, acts3) ∧
      acts3.filter Action.isUnsub = [Action.unsubscribe t] ∧
      dget ctx3.o_chans.table o = none := by
  have hinv1 : Inv7 n o t { ctx0 with o_chans := ctx0.o_chans.setItem o t } := by
    refine ⟨hcli, ?_, dget_dset_self _ _ _, dget_dset_self _ _ _, ?_,
      nodup_keys_dset _ _ hnd1, nodup_keys_dset _ _ hnd2⟩
    · show (dget ctx0.i_chans.table "ctrl").isSome = true
      rw [hic]
      rfl
    · intro f hf
      show dget (dset ctx0.o_chans.table o t) f ≠ some t
      rw [dget_dset_ne _ _ hf]
      exact hfresh f
  have hctrl1 : dget ({ ctx0 with o_chans := ctx0.o_chans.setItem o t
      }).o_chans.table "ctrl" = some ct0 := by
    show dget (dset ctx0.o_chans.table o t) "ctrl" = some ct0
    rw [dget_dset_ne _ _ (Ne.symm hno)]
    exact hoc
  obtain ⟨⟨hcli2, hic2S, hto2, hrt2, hother2, hnd12, hnd22⟩, hctrl2⟩ :=
    inv7c_run hms hrun hinv1 hctrl1
  obtain ⟨ic2, hic2⟩ := Option.isSome_iff_exists.mp hic2S
  have hdel2 : ctx2.o_chans.delItem o =
      some ⟨ddel ctx2.o_chans.table o, ddel ctx2.o_chans.rtable t⟩ := by
    unfold ChannelPool.delItem
    rw [hto2]
    simp [hrt2]
  refine ⟨?_, dget_dset_self _ _ _,
    ⟨{ ctx2 with
        o_chans := ⟨ddel ctx2.o_chans.table o, ddel ctx2.o_chans.rtable t⟩ },
     [Action.unsubscribe t,
      Action.publish ic2 (replyOf mid2 (onSignal "DISCONNECT" [o])) 2 false],
     ?_, ?_, ?_⟩⟩
  · simp [Client.on_message, hcli, ChannelPool.get, hoc, Client.handle_signal,
      signalMutation, ChannelPool.setItem, dget_dset_self, hic]
  · simp [Client.on_message, hcli2, ChannelPool.get, hctrl2,
      Client.handle_signal, signalMutation, hto2, hdel2, hic2]
  · simp [Action.isUnsub]
  · show dget (ddel ctx2.o_chans.table o) o = none
    exact dget_ddel_self hnd12

/-- Witness for C7: connect output feature `door` to `top1` on the live
fixture context, one interleaved CONNECT for the input feature `temp`
(all delivered on the control topic `out/ctrl`), then disconnect
`door`. -/
theorem C7_connect_disconnect_witness :
    Client.on_message ctxW (fun _ _ => CbResult.isTrue) 1 "out/ctrl"
        ⟨"CONNECT", 1, none, some "door", some "top1"⟩ =
      Except.ok ({ ctxW with o_chans := ctxW.o_chans.setItem "door" "top1" },
        [Action.subscribe "top1" 0,
         Action.publish "in/ctrl" (replyOf 1 CbResult.isTrue) 2 false]) ∧
    dget ({ ctxW with o_chans := ctxW.o_chans.setItem "door" "top1"
        }).o_chans.table "door" = some "top1" ∧
    ∃ ctx3 acts3,
      Client.on_message
          { ctxW with
            o_chans := ctxW.o_chans.setItem "door" "top1"
            i_chans := ctxW.i_chans.setItem "temp" "app/123/temp" }
          (fun _ _ => CbResult.isTrue) 1 "out/ctrl"
          ⟨"DISCONNECT", 2, none, some "door", none⟩ =
        Except.ok (ctx3, acts3) ∧
      acts3.filter Action.isUnsub = [Action.unsubscribe "top1"] ∧
      dget ctx3.o_chans.table "door" = none := by
  refine C7_connect_disconnect ctxW (fun _ _ => CbResult.isTrue) 1 "door"
    "top1" "in/ctrl" "out/ctrl" 1 2
    [("out/ctrl", ⟨"CONNECT", 5, some "temp", none, some "app/123/temp"⟩)]
    { ctxW with
      o_chans := ctxW.o_chans.setItem "door" "top1"
      i_chans := ctxW.i_chans.setItem "temp" "app/123/temp" }
    [Action.publish "in/ctrl" (replyOf 5 CbResult.isTrue) 2 false]
    rfl rfl rfl (by decide) ?_ ?_ ?_ ?_ rfl
  · intro f
    show dget [("ctrl", "out/ctrl")] f ≠ some "top1"
    by_cases h : "ctrl" = f <;> simp [dget, h]
  · show (keys [("ctrl", "out/ctrl")]).Nodup
    simp [keys]
  · show (keys [("out/ctrl", "ctrl")]).Nodup
    simp [keys]
  · intro p hp
    simp only [List.mem_singleton] at hp
    subst hp
    refine ⟨by simp, by simp, by simp⟩
end IotTalk
